import Mathlib

/-!
Verification of the transaction core (`src/sdk/src/transaction/mod.rs`): a
shallow embedding of the `Transaction` data model, its sanitization, signing,
verification and durable-nonce detection, together with theorems settling the
specification claims.

Modelling conventions:
- `Pubkey`, `Hash` and `Signature` are opaque fixed-size values in the source;
  they are modelled as `Nat` (only equality and the all-zero `Signature`
  sentinel matter to this core).  `Signature::default()` is `signatureDefault`.
- Byte strings are `List Nat`.
- `u8` header counts are modelled as `Nat` (the source immediately widens them
  with `as usize` before every comparison).
- External collaborators (the message serializer, the ed25519 verify primitive,
  the bounded instruction deserializer) are passed as explicit function
  parameters, mirroring §6 of the specification.
- Rust methods taking `&mut self` are modelled as functions returning the
  result paired with the post-state transaction.
- Rust's panicking indexed store `v[i] = x` is modelled with `List.set`
  (which is a no-op out of range); theorems about the stored values carry the
  bounds hypotheses under which the two coincide.
-/

deriving instance DecidableEq for Except

/-- Account identifier (ed25519 public key in the source); opaque, only
equality is used by this core. -/
abbrev Pubkey := Nat

/-- 32-byte hash value (`recent_blockhash`); opaque, only equality is used. -/
abbrev Hash := Nat

/-- Ed25519 signature; opaque, with a distinguished all-zero sentinel. -/
abbrev Signature := Nat

/-- Serialized byte string. -/
abbrev Bytes := List Nat

/-- Embeds `Signature::default()`: the all-zero sentinel meaning "not yet signed". -/
def signatureDefault : Signature := 0

/-- Embeds `SanitizeError` (from the sdk `sanitize` module): structural sanitization
failures.  The `From` impl in the source ignores the variant, so only the
carrier type matters here. -/
inductive SanitizeError where
  | IndexOutOfBounds
  | ValueOutOfBounds
  | InvalidValue
deriving DecidableEq

/-- Embeds `SanitizeMessageError`: the four variants matched exhaustively by
`impl From<SanitizeMessageError> for TransactionError` in the source. -/
inductive SanitizeMessageError where
  | IndexOutOfBounds
  | ValueOutOfBounds
  | InvalidValue
  | DuplicateAccountKey
deriving DecidableEq

/-- Embeds `TransactionError`: reasons a transaction might be rejected (the variants
relevant to this core). -/
inductive TransactionError where
  | AccountInUse
  | AccountLoadedTwice
  | AccountNotFound
  | ProgramAccountNotFound
  | InvalidAccountIndex
  | SignatureFailure
  | SanitizeFailure
deriving DecidableEq

/-- Embeds `SignerError` (from the sdk `signature` module): signing-time failures.
`transactionError` is the `#[from] TransactionError` conversion variant used
when `get_signing_keypair_positions` fails inside `try_partial_sign`. -/
inductive SignerError where
  | KeypairPubkeyMismatch
  | NotEnoughSigners
  | transactionError (e : TransactionError)
  | Custom
deriving DecidableEq

/-- Embeds `impl From<SanitizeError> for TransactionError`: every variant maps to
`SanitizeFailure`. -/
def TransactionError.fromSanitizeError (_ : SanitizeError) : TransactionError :=
  TransactionError.SanitizeFailure

/-- Embeds `impl From<SanitizeMessageError> for TransactionError`: the three
index/value variants map to `SanitizeFailure`; `DuplicateAccountKey` maps to
`AccountLoadedTwice`. -/
def TransactionError.fromSanitizeMessageError : SanitizeMessageError → TransactionError
  | SanitizeMessageError.IndexOutOfBounds => TransactionError.SanitizeFailure
  | SanitizeMessageError.ValueOutOfBounds => TransactionError.SanitizeFailure
  | SanitizeMessageError.InvalidValue => TransactionError.SanitizeFailure
  | SanitizeMessageError.DuplicateAccountKey => TransactionError.AccountLoadedTwice

/-- Embeds `MessageHeader`: the three `u8` counts. -/
structure MessageHeader where
  num_required_signatures : Nat
  num_readonly_signed_accounts : Nat
  num_readonly_unsigned_accounts : Nat
deriving DecidableEq

/-- Embeds `CompiledInstruction`: program id index, account-key indices, opaque data. -/
structure CompiledInstruction where
  program_id_index : Nat
  accounts : List Nat
  data : Bytes
deriving DecidableEq

/-- Embeds `Message`: header, account keys, recent blockhash, instructions. -/
structure Message where
  header : MessageHeader
  account_keys : List Pubkey
  recent_blockhash : Hash
  instructions : List CompiledInstruction
deriving DecidableEq

/-- Embeds `Transaction`: signatures plus the message they sign. -/
structure Transaction where
  signatures : List Signature
  message : Message
deriving DecidableEq

/-- Embeds `SystemInstruction`: the system-program instruction enum (the variants
needed by the nonce detector; `Other` stands for the remaining variants). -/
inductive SystemInstruction where
  | CreateAccount
  | Assign
  | Transfer
  | AdvanceNonceAccount
  | WithdrawNonceAccount
  | InitializeNonceAccount
  | AuthorizeNonceAccount
  | Other
deriving DecidableEq

/-- Modelled from the spec: the well-known system program identifier
("its resolved program identifier equals the well-known system program
identifier", §4.4).  The concrete value is irrelevant; only equality against
it is used. -/
def system_program_id : Pubkey := 0

/-- Embeds `system_program::check_id`: equality against the system program id. -/
def system_program_check_id (p : Pubkey) : Bool := p == system_program_id

/-- Modelled from the spec: `NONCED_TX_MARKER_IX_INDEX`, "a fixed,
protocol-defined index (the marker index, conventionally the first instruction
in a durable-nonce transaction)" (§4.4). -/
def NONCED_TX_MARKER_IX_INDEX : Nat := 0

/-- Modelled from the spec: the message writability query
`is_writable(index, is_signer_context)` consumed by the nonce detector (§6),
following the signer/read-only partition of §3: the first
`num_required_signatures` keys are signers, of which the last
`num_readonly_signed_accounts` are read-only; of the remaining suffix the last
`num_readonly_unsigned_accounts` are read-only.  The second (feature-gating)
argument is carried to mirror the call site `is_writable(*index as usize, true)`
but does not affect the partition. -/
def Message.is_writable (m : Message) (i : Nat) (_demote : Bool) : Bool :=
  decide (i < m.header.num_required_signatures - m.header.num_readonly_signed_accounts)
  || (decide (m.header.num_required_signatures ≤ i)
      && decide (i < m.account_keys.length - m.header.num_readonly_unsigned_accounts))

/-- Modelled from the spec: the message's own sanitize contract, "index bounds
for every instruction's `program_id_index` and `accounts` entries against
`account_keys`; header-count consistency; no duplicate account keys" (§4.1),
with header-count consistency read off the partition of §3.  The message type
lives outside the given source tree; `Transaction.sanitize` below is therefore
parametric in the message sanitizer and this definition is one faithful
instantiation. -/
def Message.sanitizeSpec (m : Message) : Except SanitizeError Unit :=
  if m.header.num_readonly_signed_accounts > m.header.num_required_signatures then
    Except.error SanitizeError.IndexOutOfBounds
  else if m.header.num_required_signatures + m.header.num_readonly_unsigned_accounts
      > m.account_keys.length then
    Except.error SanitizeError.IndexOutOfBounds
  else if m.instructions.any (fun ci =>
      decide (m.account_keys.length ≤ ci.program_id_index)
      || ci.accounts.any (fun ai => decide (m.account_keys.length ≤ ai))) then
    Except.error SanitizeError.IndexOutOfBounds
  else if ¬ m.account_keys.Nodup then
    Except.error SanitizeError.InvalidValue
  else
    Except.ok ()

/-- Embeds `impl Sanitize for Transaction`: the two length checks, then delegation to
the message's own sanitize.  The message sanitizer is an explicit parameter
(the message type is an external collaborator, §1).  Pure: `&self` in the
source, a plain function here. -/
def Transaction.sanitize (msgSanitize : Message → Except SanitizeError Unit)
    (tx : Transaction) : Except SanitizeError Unit :=
  if tx.message.header.num_required_signatures > tx.signatures.length then
    Except.error SanitizeError.IndexOutOfBounds
  else if tx.signatures.length > tx.message.account_keys.length then
    Except.error SanitizeError.IndexOutOfBounds
  else
    msgSanitize tx.message

/-- Embeds `Transaction::new_unsigned`: sentinel-filled signature slots, one per
required signer. -/
def Transaction.new_unsigned (message : Message) : Transaction :=
  { signatures := List.replicate message.header.num_required_signatures signatureDefault,
    message := message }

/-- Embeds `Transaction::message_data`: serialize the message (serializer is the
external collaborator `serialize(message) -> bytes`, §6). -/
def Transaction.message_data (ser : Message → Bytes) (tx : Transaction) : Bytes :=
  ser tx.message

/-- Embeds `Transaction::_verify_with_results`: zip signatures with account keys in
lockstep and verify each pair over the given message bytes.  `sv` is the
external `verify(signature, pubkey, bytes) -> bool` primitive (§6). -/
def Transaction.verify_with_results_aux (sv : Signature → Pubkey → Bytes → Bool)
    (tx : Transaction) (message_bytes : Bytes) : List Bool :=
  (tx.signatures.zip tx.message.account_keys).map
    (fun pair => sv pair.1 pair.2 message_bytes)

/-- Embeds `Transaction::verify`: serialize once, fail with `SignatureFailure` unless
every lockstep pair verifies. -/
def Transaction.verify (sv : Signature → Pubkey → Bytes → Bool)
    (ser : Message → Bytes) (tx : Transaction) : Except TransactionError Unit :=
  let message_bytes := tx.message_data ser
  if ¬ ((tx.verify_with_results_aux sv message_bytes).all (fun b => b)) then
    Except.error TransactionError.SignatureFailure
  else
    Except.ok ()

/-- Embeds `Transaction::verify_signatures_len`: the exact-length check, separate from
`sanitize`. -/
def Transaction.verify_signatures_len (tx : Transaction) : Bool :=
  tx.signatures.length == tx.message.header.num_required_signatures

/-- Embeds `Transaction::is_signed`: every slot differs from the sentinel. -/
def Transaction.is_signed (tx : Transaction) : Bool :=
  tx.signatures.all (fun signature => signature != signatureDefault)

/-- Embeds `Transaction::get_signing_keypair_positions`: positions of the given
pubkeys within the signer slice `account_keys[0..num_required_signatures]`. -/
def Transaction.get_signing_keypair_positions (tx : Transaction)
    (pubkeys : List Pubkey) : Except TransactionError (List (Option Nat)) :=
  if tx.message.account_keys.length < tx.message.header.num_required_signatures then
    Except.error TransactionError.InvalidAccountIndex
  else
    let signed_keys := tx.message.account_keys.take tx.message.header.num_required_signatures
    Except.ok (pubkeys.map (fun pubkey => signed_keys.findIdx? (fun x => x == pubkey)))

/-- The `Signers` trait as consumed by this core: a pubkey list and a batch
message-signing operation (`pubkeys()` / `try_sign_message()`). -/
structure Signers where
  pubkeys : List Pubkey
  try_sign_message : Bytes → Except SignerError (List Signature)

/-- The positional store loop `for i in 0..positions.len()
{ self.signatures[positions[i]] = signatures[i] }`, as a fold of `List.set`
over the zipped (position, value) pairs. -/
def writeAll (l : List Signature) (ws : List (Nat × Signature)) : List Signature :=
  ws.foldl (fun acc w => acc.set w.1 w.2) l

/-- Embeds `Transaction::try_partial_sign_unchecked`: if the blockhash changes,
overwrite it and clear every signature slot to the sentinel; then batch-sign
the (possibly just-mutated) serialized message and store each signature at its
given position. -/
def Transaction.try_partial_sign_unchecked (ser : Message → Bytes)
    (tx : Transaction) (keypairs : Signers) (positions : List Nat)
    (recent_blockhash : Hash) : Except SignerError Unit × Transaction :=
  -- if you change the blockhash, you're re-signing...
  let tx1 :=
    if recent_blockhash ≠ tx.message.recent_blockhash then
      { signatures := tx.signatures.map (fun _ => signatureDefault),
        message := { tx.message with recent_blockhash := recent_blockhash } }
    else tx
  match keypairs.try_sign_message (tx1.message_data ser) with
  | Except.error e => (Except.error e, tx1)
  | Except.ok signatures =>
      (Except.ok (), { tx1 with signatures := writeAll tx1.signatures (positions.zip signatures) })

/-- Embeds `Transaction::try_partial_sign`: derive positions, fail with
`KeypairPubkeyMismatch` if any pubkey is not a required signer, else delegate
to the unchecked primitive (the `unwrap` on each position is safe after the
`any none` guard and is modelled with `getD 0`). -/
def Transaction.try_partial_sign (ser : Message → Bytes) (tx : Transaction)
    (keypairs : Signers) (recent_blockhash : Hash) :
    Except SignerError Unit × Transaction :=
  match tx.get_signing_keypair_positions keypairs.pubkeys with
  | Except.error e => (Except.error (SignerError.transactionError e), tx)
  | Except.ok positions =>
      if positions.any (fun pos => pos.isNone) then
        (Except.error SignerError.KeypairPubkeyMismatch, tx)
      else
        tx.try_partial_sign_unchecked ser keypairs
          (positions.map (fun pos => pos.getD 0)) recent_blockhash

/-- Embeds `Transaction::try_sign`: `try_partial_sign`, then `NotEnoughSigners` if
some slot still holds the sentinel. -/
def Transaction.try_sign (ser : Message → Bytes) (tx : Transaction)
    (keypairs : Signers) (recent_blockhash : Hash) :
    Except SignerError Unit × Transaction :=
  match tx.try_partial_sign ser keypairs recent_blockhash with
  | (Except.error e, tx1) => (Except.error e, tx1)
  | (Except.ok _, tx1) =>
      if ¬ tx1.is_signed then (Except.error SignerError.NotEnoughSigners, tx1)
      else (Except.ok (), tx1)

/-- Embeds `Transaction::replace_signatures`: length checks, positional overwrite of
signatures and account keys from the signer pairs, then `verify()` on the
mutated transaction. -/
def Transaction.replace_signatures (sv : Signature → Pubkey → Bytes → Bool)
    (ser : Message → Bytes) (tx : Transaction)
    (signers : List (Pubkey × Signature)) : Except TransactionError Unit × Transaction :=
  let num_required_signatures := tx.message.header.num_required_signatures
  if signers.length ≠ num_required_signatures
      ∨ tx.signatures.length ≠ num_required_signatures
      ∨ tx.message.account_keys.length < num_required_signatures then
    (Except.error TransactionError.InvalidAccountIndex, tx)
  else
    let tx1 := signers.enum.foldl (fun t w =>
      { signatures := t.signatures.set w.1 w.2.2,
        message := { t.message with account_keys := t.message.account_keys.set w.1 w.2.1 } }) tx
    (tx1.verify sv ser, tx1)

/-- Embeds `uses_durable_nonce`: the instruction at the marker index, filtered by the
three semantic conditions (system program id, advance-nonce payload, writable
nonce account).  `ld` is the external `limited_deserialize` collaborator
(§6). -/
def uses_durable_nonce (ld : Bytes → Except Unit SystemInstruction)
    (tx : Transaction) : Option CompiledInstruction :=
  let message := tx.message
  (message.instructions[NONCED_TX_MARKER_IX_INDEX]?).filter (fun instruction =>
    -- Is system program
    (match message.account_keys[instruction.program_id_index]? with
     | some program_id => system_program_check_id program_id
     | none => false)
    -- Is a nonce advance instruction
    && (match ld instruction.data with
        | Except.ok SystemInstruction.AdvanceNonceAccount => true
        | _ => false)
    -- Nonce account is writable
    && (match instruction.accounts[0]? with
        | some index => message.is_writable index true
        | none => false))

/-! ## Helper lemmas about the positional store `writeAll` -/

theorem writeAll_cons (l : List Signature) (w : Nat × Signature)
    (ws : List (Nat × Signature)) :
    writeAll l (w :: ws) = writeAll (l.set w.1 w.2) ws := rfl

theorem writeAll_length (ws : List (Nat × Signature)) (l : List Signature) :
    (writeAll l ws).length = l.length := by
  induction ws generalizing l with
  | nil => rfl
  | cons w ws ih => rw [writeAll_cons, ih, List.length_set]

/-- The value stored last at index `i` by the write list `ws` (later writes
take precedence), if any. -/
def lastWrite : List (Nat × Signature) → Nat → Option Signature
  | [], _ => none
  | w :: ws, i =>
    match lastWrite ws i with
    | some v => some v
    | none => if w.1 = i then some w.2 else none

theorem getElem?_set_ite (l : List Signature) (i : Nat) (a : Signature) :
    (l.set i a)[i]? = if i < l.length then some a else none := by
  by_cases h : i < l.length
  · rw [if_pos h, List.getElem?_set_self', List.getElem?_eq_getElem h]
    rfl
  · rw [if_neg h]
    exact List.getElem?_eq_none (by rw [List.length_set]; omega)

theorem writeAll_getElem? (ws : List (Nat × Signature)) (l : List Signature)
    (i : Nat) :
    (writeAll l ws)[i]? =
      match lastWrite ws i with
      | some v => if i < l.length then some v else none
      | none => l[i]? := by
  induction ws generalizing l with
  | nil => simp [writeAll, lastWrite]
  | cons w ws ih =>
    rw [writeAll_cons, ih, List.length_set]
    cases h : lastWrite ws i with
    | some v => simp [lastWrite, h]
    | none =>
      by_cases hw : w.1 = i
      · subst hw
        simp [lastWrite, h, getElem?_set_ite]
      · simp [lastWrite, h, hw, List.getElem?_set_ne hw]

theorem writeAll_idem (ws : List (Nat × Signature)) (l : List Signature) :
    writeAll (writeAll l ws) ws = writeAll l ws := by
  apply List.ext_getElem?
  intro i
  rw [writeAll_getElem? ws (writeAll l ws) i]
  cases h : lastWrite ws i with
  | some v =>
    rw [writeAll_length, writeAll_getElem? ws l i, h]
  | none => rfl

theorem lastWrite_eq_none (ws : List (Nat × Signature)) (i : Nat)
    (h : ∀ w ∈ ws, w.1 ≠ i) : lastWrite ws i = none := by
  induction ws with
  | nil => rfl
  | cons w ws ih =>
    have hw : w.1 ≠ i := h w (List.mem_cons_self w ws)
    have hws := ih (fun x hx => h x (List.mem_cons_of_mem w hx))
    simp [lastWrite, hws, hw]

theorem writeAll_getElem?_not_written (ws : List (Nat × Signature))
    (l : List Signature) (i : Nat) (h : ∀ w ∈ ws, w.1 ≠ i) :
    (writeAll l ws)[i]? = l[i]? := by
  rw [writeAll_getElem?, lastWrite_eq_none ws i h]

theorem lastWrite_enumFrom_map {β : Type} (f : β → Signature) :
    ∀ (vals : List β) (n i : Nat),
      lastWrite ((vals.enumFrom n).map (fun w => (w.1, f w.2))) i =
        if n ≤ i then (vals[i - n]?).map f else none := by
  intro vals
  induction vals with
  | nil => intro n i; simp [lastWrite]
  | cons v vs ih =>
    intro n i
    have hcons : (List.enumFrom n (v :: vs)).map (fun w => (w.1, f w.2))
        = (n, f v) :: (vs.enumFrom (n + 1)).map (fun w => (w.1, f w.2)) := rfl
    rw [hcons]
    simp only [lastWrite]
    rw [ih (n + 1) i]
    rcases Nat.lt_trichotomy i n with hlt | heq | hgt
    · have e1 : ¬ (n + 1 ≤ i) := by omega
      have e2 : ¬ (n ≤ i) := by omega
      have e3 : ¬ (n = i) := by omega
      simp [e1, e2, e3]
    · subst heq
      have e1 : ¬ (i + 1 ≤ i) := by omega
      simp [e1, Nat.sub_self]
    · have e1 : n + 1 ≤ i := by omega
      have e2 : n ≤ i := by omega
      have e3 : ¬ (n = i) := by omega
      have hidx : i - n = (i - (n + 1)) + 1 := by omega
      rw [if_pos e1, if_pos e2, hidx, List.getElem?_cons_succ]
      cases hv : vs[i - (n + 1)]? with
      | none => simp [e3]
      | some w => simp

/-- The signature vector right after the blockhash check of
`try_partial_sign_unchecked`: unchanged when the provided blockhash equals the
stored one, sentinel-cleared otherwise. -/
def clearedSignatures (tx : Transaction) (recent_blockhash : Hash) : List Signature :=
  if recent_blockhash = tx.message.recent_blockhash then tx.signatures
  else tx.signatures.map (fun _ => signatureDefault)

theorem try_partial_sign_unchecked_eq (ser : Message → Bytes) (tx : Transaction)
    (keypairs : Signers) (positions : List Nat) (recent_blockhash : Hash) :
    tx.try_partial_sign_unchecked ser keypairs positions recent_blockhash =
      match keypairs.try_sign_message
          (ser { tx.message with recent_blockhash := recent_blockhash }) with
      | Except.error e =>
          (Except.error e,
           { signatures := clearedSignatures tx recent_blockhash,
             message := { tx.message with recent_blockhash := recent_blockhash } })
      | Except.ok sigs =>
          (Except.ok (),
           { signatures := writeAll (clearedSignatures tx recent_blockhash) (positions.zip sigs),
             message := { tx.message with recent_blockhash := recent_blockhash } }) := by
  by_cases h : recent_blockhash = tx.message.recent_blockhash
  · have hmsg : { tx.message with recent_blockhash := recent_blockhash } = tx.message := by
      rw [h]
    simp [Transaction.try_partial_sign_unchecked, Transaction.message_data,
      clearedSignatures, h, hmsg]
  · simp [Transaction.try_partial_sign_unchecked, Transaction.message_data,
      clearedSignatures, h]

theorem replace_signatures_loop_eq :
    ∀ (ws : List (Nat × (Pubkey × Signature))) (tx : Transaction),
      ws.foldl (fun t w =>
        { signatures := t.signatures.set w.1 w.2.2,
          message := { t.message with account_keys := t.message.account_keys.set w.1 w.2.1 } }) tx
      = { signatures := writeAll tx.signatures (ws.map (fun w => (w.1, w.2.2))),
          message := { tx.message with
            account_keys := writeAll tx.message.account_keys (ws.map (fun w => (w.1, w.2.1))) } } := by
  intro ws
  induction ws with
  | nil => intro tx; rfl
  | cons w ws ih =>
    intro tx
    rw [List.foldl_cons, ih]
    rfl

/-! ## Claim theorems -/

/-- Claim C5 (confirmed): `sanitize` performs its checks in order,
short-circuiting on first failure: it fails when `num_required_signatures`
exceeds `signatures.len()` (checked first, regardless of the remaining
checks), then fails when `signatures.len()` exceeds `account_keys.len()`, and
otherwise returns the result of the message's own sanitize.  The embedding is
a pure function of the transaction (the source takes `&self`), so the
transaction is never mutated. -/
theorem sanitize_check_order (msgSanitize : Message → Except SanitizeError Unit)
    (tx : Transaction) :
    (tx.signatures.length < tx.message.header.num_required_signatures →
      tx.sanitize msgSanitize = Except.error SanitizeError.IndexOutOfBounds)
    ∧ (tx.message.header.num_required_signatures ≤ tx.signatures.length →
        tx.message.account_keys.length < tx.signatures.length →
        tx.sanitize msgSanitize = Except.error SanitizeError.IndexOutOfBounds)
    ∧ (tx.message.header.num_required_signatures ≤ tx.signatures.length →
        tx.signatures.length ≤ tx.message.account_keys.length →
        tx.sanitize msgSanitize = msgSanitize tx.message) := by
  refine ⟨?_, ?_, ?_⟩
  · intro h1
    unfold Transaction.sanitize
    rw [if_pos h1]
  · intro h1 h2
    unfold Transaction.sanitize
    rw [if_neg (by omega), if_pos h2]
  · intro h1 h2
    unfold Transaction.sanitize
    rw [if_neg (by omega), if_neg (by omega)]

/-- Witness for C5: the three branches of `sanitize_check_order` at concrete
transactions. -/
theorem sanitize_check_order_witness :
    Transaction.sanitize (fun _ => Except.ok ()) ⟨[], ⟨⟨1, 0, 0⟩, [], 0, []⟩⟩
      = Except.error SanitizeError.IndexOutOfBounds
    ∧ Transaction.sanitize (fun _ => Except.ok ()) ⟨[0], ⟨⟨0, 0, 0⟩, [], 0, []⟩⟩
      = Except.error SanitizeError.IndexOutOfBounds
    ∧ Transaction.sanitize (fun _ => Except.error SanitizeError.InvalidValue)
        ⟨[0], ⟨⟨1, 0, 0⟩, [5], 0, []⟩⟩
      = Except.error SanitizeError.InvalidValue :=
  ⟨(sanitize_check_order _ _).1 (by decide),
   (sanitize_check_order _ _).2.1 (by decide) (by decide),
   (sanitize_check_order _ _).2.2 (by decide) (by decide)⟩

/-- Claim C6 (counterexample): the claim that every sanitize failure maps to
the single sanitize-failure error is false: `DuplicateAccountKey` converts to
`AccountLoadedTwice`, a different externally-visible error. -/
theorem fromSanitizeMessageError_duplicate_distinct :
    TransactionError.fromSanitizeMessageError SanitizeMessageError.DuplicateAccountKey
      = TransactionError.AccountLoadedTwice
    ∧ TransactionError.fromSanitizeMessageError SanitizeMessageError.DuplicateAccountKey
      ≠ TransactionError.SanitizeFailure := by
  decide

/-- Claim C6 (amended): every `SanitizeError` maps to the sanitize-failure
error, and every `SanitizeMessageError` except `DuplicateAccountKey` maps to
the sanitize-failure error; `DuplicateAccountKey` alone maps to the
account-loaded-twice error. -/
theorem sanitize_error_collapse :
    (∀ e : SanitizeError,
      TransactionError.fromSanitizeError e = TransactionError.SanitizeFailure)
    ∧ (∀ e : SanitizeMessageError, e ≠ SanitizeMessageError.DuplicateAccountKey →
        TransactionError.fromSanitizeMessageError e = TransactionError.SanitizeFailure)
    ∧ TransactionError.fromSanitizeMessageError SanitizeMessageError.DuplicateAccountKey
      = TransactionError.AccountLoadedTwice := by
  refine ⟨fun e => rfl, ?_, rfl⟩
  intro e he
  cases e with
  | IndexOutOfBounds => rfl
  | ValueOutOfBounds => rfl
  | InvalidValue => rfl
  | DuplicateAccountKey => exact absurd rfl he

/-- Witness for C6 (amended): the non-duplicate branch at a concrete variant. -/
theorem sanitize_error_collapse_witness :
    SanitizeMessageError.IndexOutOfBounds ≠ SanitizeMessageError.DuplicateAccountKey
    ∧ TransactionError.fromSanitizeMessageError SanitizeMessageError.IndexOutOfBounds
      = TransactionError.SanitizeFailure :=
  ⟨by decide, sanitize_error_collapse.2.1 SanitizeMessageError.IndexOutOfBounds (by decide)⟩

/-- Claim C1 (counterexample): a transaction with two sentinel signatures but
`num_required_signatures = 1` passes `sanitize` (with the spec-modelled
message sanitizer), yet `signatures.len() ≠ num_required_signatures`:
sanitize does not force the equality the claim states. -/
theorem sanitize_ok_length_mismatch :
    Transaction.sanitize Message.sanitizeSpec ⟨[0, 0], ⟨⟨1, 0, 0⟩, [1, 2], 0, []⟩⟩
      = Except.ok ()
    ∧ (⟨[0, 0], ⟨⟨1, 0, 0⟩, [1, 2], 0, []⟩⟩ : Transaction).signatures.length
      ≠ (⟨[0, 0], ⟨⟨1, 0, 0⟩, [1, 2], 0, []⟩⟩ : Transaction).message.header.num_required_signatures := by
  decide

/-- Claim C1 (amended): for every transaction on which `sanitize` returns Ok,
`num_required_signatures ≤ signatures.len() ≤ account_keys.len()`; hence the
verifier's lockstep zip covers every signature (its length equals
`signatures.len()`), so no signature is ever silently dropped — but equality
`signatures.len() == num_required_signatures` is not enforced by sanitize
(it is the separate `verify_signatures_len` check). -/
theorem sanitize_ok_bounds (msgSanitize : Message → Except SanitizeError Unit)
    (tx : Transaction) (h : tx.sanitize msgSanitize = Except.ok ()) :
    tx.message.header.num_required_signatures ≤ tx.signatures.length
    ∧ tx.signatures.length ≤ tx.message.account_keys.length
    ∧ (tx.signatures.zip tx.message.account_keys).length = tx.signatures.length := by
  unfold Transaction.sanitize at h
  by_cases h1 : tx.signatures.length < tx.message.header.num_required_signatures
  · rw [if_pos h1] at h
    exact Except.noConfusion h
  rw [if_neg h1] at h
  by_cases h2 : tx.message.account_keys.length < tx.signatures.length
  · rw [if_pos h2] at h
    exact Except.noConfusion h
  rw [if_neg h2] at h
  refine ⟨by omega, by omega, ?_⟩
  rw [List.length_zip]
  exact Nat.min_eq_left (by omega)

/-- Witness for C1 (amended): the bounds at a concrete sanitized transaction. -/
theorem sanitize_ok_bounds_witness :
    Transaction.sanitize (fun _ => Except.ok ()) ⟨[0], ⟨⟨1, 0, 0⟩, [1], 0, []⟩⟩
      = Except.ok ()
    ∧ ((⟨[0], ⟨⟨1, 0, 0⟩, [1], 0, []⟩⟩ : Transaction).message.header.num_required_signatures
        ≤ (⟨[0], ⟨⟨1, 0, 0⟩, [1], 0, []⟩⟩ : Transaction).signatures.length
      ∧ (⟨[0], ⟨⟨1, 0, 0⟩, [1], 0, []⟩⟩ : Transaction).signatures.length
        ≤ (⟨[0], ⟨⟨1, 0, 0⟩, [1], 0, []⟩⟩ : Transaction).message.account_keys.length
      ∧ ((⟨[0], ⟨⟨1, 0, 0⟩, [1], 0, []⟩⟩ : Transaction).signatures.zip
          (⟨[0], ⟨⟨1, 0, 0⟩, [1], 0, []⟩⟩ : Transaction).message.account_keys).length
        = (⟨[0], ⟨⟨1, 0, 0⟩, [1], 0, []⟩⟩ : Transaction).signatures.length) :=
  ⟨by decide,
   sanitize_ok_bounds (fun _ => Except.ok ()) ⟨[0], ⟨⟨1, 0, 0⟩, [1], 0, []⟩⟩ (by decide)⟩

/-- Claim C2 (confirmed): `verify` returns Ok iff, for every
(signature, account_key) pair obtained by zipping signatures with account keys
in lockstep, the signature verifies over the serialized message bytes under
that key; otherwise it returns the signature-failure error.  The zip covers
exactly `min(signatures.len(), account_keys.len())` pairs. -/
theorem verify_iff_all_pairs (sv : Signature → Pubkey → Bytes → Bool)
    (ser : Message → Bytes) (tx : Transaction) :
    (tx.verify sv ser = Except.ok () ↔
      ∀ pair ∈ tx.signatures.zip tx.message.account_keys,
        sv pair.1 pair.2 (ser tx.message) = true)
    ∧ (tx.verify sv ser ≠ Except.ok () →
        tx.verify sv ser = Except.error TransactionError.SignatureFailure)
    ∧ (tx.signatures.zip tx.message.account_keys).length
        = min tx.signatures.length tx.message.account_keys.length := by
  have key : (((tx.signatures.zip tx.message.account_keys).map
      (fun pair => sv pair.1 pair.2 (ser tx.message))).all (fun b => b) = true) ↔
      (∀ pair ∈ tx.signatures.zip tx.message.account_keys,
        sv pair.1 pair.2 (ser tx.message) = true) := by
    rw [List.all_eq_true]
    constructor
    · intro h pair hmem
      simpa using h (sv pair.1 pair.2 (ser tx.message)) (List.mem_map_of_mem _ hmem)
    · intro h x hx
      rcases List.mem_map.mp hx with ⟨pair, hmem, rfl⟩
      simpa using h pair hmem
  have hchar : tx.verify sv ser =
      (if ((tx.signatures.zip tx.message.account_keys).map
          (fun pair => sv pair.1 pair.2 (ser tx.message))).all (fun b => b)
       then Except.ok () else Except.error TransactionError.SignatureFailure) := by
    unfold Transaction.verify Transaction.verify_with_results_aux Transaction.message_data
    by_cases hc : ((tx.signatures.zip tx.message.account_keys).map
        (fun pair => sv pair.1 pair.2 (ser tx.message))).all (fun b => b) = true
    · simp [hc]
    · simp [hc]
  by_cases hc : ((tx.signatures.zip tx.message.account_keys).map
      (fun pair => sv pair.1 pair.2 (ser tx.message))).all (fun b => b) = true
  · rw [hchar, hc]
    exact ⟨iff_of_true (by simp) (key.mp hc),
           fun hne => absurd (by simp) hne, List.length_zip _ _⟩
  · rw [hchar]
    simp only [hc]
    refine ⟨iff_of_false (by simp) (fun hall => hc (key.mpr hall)), fun _ => by simp,
      List.length_zip _ _⟩

/-- Witness for C2: a transaction with one never-verifying pair fails with the
signature-failure error. -/
theorem verify_iff_all_pairs_witness :
    Transaction.verify (fun _ _ _ => false) (fun _ => []) ⟨[0], ⟨⟨1, 0, 0⟩, [1], 0, []⟩⟩
      ≠ Except.ok ()
    ∧ Transaction.verify (fun _ _ _ => false) (fun _ => []) ⟨[0], ⟨⟨1, 0, 0⟩, [1], 0, []⟩⟩
      = Except.error TransactionError.SignatureFailure :=
  ⟨by decide,
   (verify_iff_all_pairs (fun _ _ _ => false) (fun _ => [])
     ⟨[0], ⟨⟨1, 0, 0⟩, [1], 0, []⟩⟩).2.1 (by decide)⟩

/-- Claim C9 (confirmed): a transaction with an empty signature sequence — in
particular one built by `new_unsigned` from a message with
`num_required_signatures = 0` — has `is_signed = true` and `verify = Ok`
vacuously: no pair is ever checked. -/
theorem empty_signatures_vacuous (sv : Signature → Pubkey → Bytes → Bool)
    (ser : Message → Bytes) :
    (∀ tx : Transaction, tx.signatures = [] →
      tx.is_signed = true ∧ tx.verify sv ser = Except.ok ())
    ∧ (∀ m : Message, m.header.num_required_signatures = 0 →
        (Transaction.new_unsigned m).signatures = []) := by
  constructor
  · intro tx h
    constructor
    · simp [Transaction.is_signed, h]
    · simp [Transaction.verify, Transaction.verify_with_results_aux,
        Transaction.message_data, h]
  · intro m h
    simp [Transaction.new_unsigned, h]

/-- Witness for C9: the vacuous case at a concrete empty-signature
transaction built by `new_unsigned`. -/
theorem empty_signatures_vacuous_witness :
    (Transaction.new_unsigned ⟨⟨0, 0, 0⟩, [3], 0, []⟩).signatures = []
    ∧ ((Transaction.new_unsigned ⟨⟨0, 0, 0⟩, [3], 0, []⟩).is_signed = true
       ∧ Transaction.verify (fun _ _ _ => false) (fun _ => [])
           (Transaction.new_unsigned ⟨⟨0, 0, 0⟩, [3], 0, []⟩) = Except.ok ()) :=
  ⟨(empty_signatures_vacuous (fun _ _ _ => false) (fun _ => [])).2
      ⟨⟨0, 0, 0⟩, [3], 0, []⟩ rfl,
   (empty_signatures_vacuous (fun _ _ _ => false) (fun _ => [])).1
      (Transaction.new_unsigned ⟨⟨0, 0, 0⟩, [3], 0, []⟩) (by decide)⟩

/-- Claim C4 (confirmed): `uses_durable_nonce` returns `some ix` precisely
when all four conditions hold: the instruction at the fixed marker index is
`ix`; its `program_id_index` resolves within the account keys to the system
program identifier; its data limited-deserializes to the advance-nonce-account
variant; and its first referenced account index resolves to a writable
account.  Negating any one condition therefore forces the result to `none`
(the result is either `none` or the marker instruction itself). -/
theorem uses_durable_nonce_iff (ld : Bytes → Except Unit SystemInstruction)
    (tx : Transaction) (ix : CompiledInstruction) :
    uses_durable_nonce ld tx = some ix ↔
      (tx.message.instructions[NONCED_TX_MARKER_IX_INDEX]? = some ix
       ∧ (∃ program_id, tx.message.account_keys[ix.program_id_index]? = some program_id
            ∧ system_program_check_id program_id = true)
       ∧ ld ix.data = Except.ok SystemInstruction.AdvanceNonceAccount
       ∧ (∃ index, ix.accounts[0]? = some index
            ∧ tx.message.is_writable index true = true)) := by
  have hpid : ((match tx.message.account_keys[ix.program_id_index]? with
      | some program_id => system_program_check_id program_id
      | none => false) = true) ↔
      (∃ program_id, tx.message.account_keys[ix.program_id_index]? = some program_id
        ∧ system_program_check_id program_id = true) := by
    cases h : tx.message.account_keys[ix.program_id_index]? <;> simp [h]
  have hld : ((match ld ix.data with
      | Except.ok SystemInstruction.AdvanceNonceAccount => true
      | _ => false) = true) ↔
      ld ix.data = Except.ok SystemInstruction.AdvanceNonceAccount := by
    cases h : ld ix.data with
    | error e => simp [h]
    | ok si => cases si <;> simp [h]
  have hacc : ((match ix.accounts[0]? with
      | some index => tx.message.is_writable index true
      | none => false) = true) ↔
      (∃ index, ix.accounts[0]? = some index ∧ tx.message.is_writable index true = true) := by
    cases h : ix.accounts[0]? <;> simp [h]
  unfold uses_durable_nonce
  rw [Option.filter_eq_some, Option.mem_def]
  constructor
  · rintro ⟨h1, hcond⟩
    simp only [Bool.and_eq_true] at hcond
    exact ⟨h1, hpid.mp hcond.1.1, hld.mp hcond.1.2, hacc.mp hcond.2⟩
  · rintro ⟨h1, h2, h3, h4⟩
    refine ⟨h1, ?_⟩
    simp only [Bool.and_eq_true]
    exact ⟨⟨hpid.mpr h2, hld.mpr h3⟩, hacc.mpr h4⟩

/-- Serializer sample used by concrete witnesses. -/
def serNil : Message → Bytes := fun _ => []

/-- Always-failing signature-verify sample used by concrete witnesses. -/
def svF : Signature → Pubkey → Bytes → Bool := fun _ _ _ => false

/-- Concrete transaction for the C7 counterexample: a structurally broken
message (`account_keys` shorter than `num_required_signatures`). -/
def txC7 : Transaction := ⟨[], ⟨⟨1, 0, 0⟩, [], 0, []⟩⟩

/-- Signers for the C7 counterexample. -/
def kpsC7 : Signers := ⟨[5], fun _ => Except.ok [9]⟩

/-- Claim C7 (counterexample): the pubkey 5 is absent from the signer
slice, yet `try_partial_sign` does not fail with the keypair-pubkey-mismatch
error: the broken-prefix check of `get_signing_keypair_positions` fires first
and its invalid-account-index error is converted and returned instead. -/
theorem try_partial_sign_mismatch_cex :
    (5 : Pubkey) ∉ txC7.message.account_keys.take txC7.message.header.num_required_signatures
    ∧ (5 : Pubkey) ∈ kpsC7.pubkeys
    ∧ (txC7.try_partial_sign serNil kpsC7 0).1
        = Except.error (SignerError.transactionError TransactionError.InvalidAccountIndex)
    ∧ (txC7.try_partial_sign serNil kpsC7 0).1
        ≠ Except.error SignerError.KeypairPubkeyMismatch := by
  decide

/-- Claim C7 (amended): provided the message is not structurally broken
(`account_keys.len() ≥ num_required_signatures`), calling `try_partial_sign`
with key pairs of which at least one pubkey is absent from the signer slice
`account_keys[0..num_required_signatures]` fails with the
keypair-pubkey-mismatch error and returns the transaction entirely unchanged
(post-state equals the input transaction, signatures and message included). -/
theorem try_partial_sign_mismatch (ser : Message → Bytes) (tx : Transaction)
    (keypairs : Signers) (recent_blockhash : Hash)
    (hlen : tx.message.header.num_required_signatures ≤ tx.message.account_keys.length)
    (habs : ∃ pk ∈ keypairs.pubkeys,
      pk ∉ tx.message.account_keys.take tx.message.header.num_required_signatures) :
    tx.try_partial_sign ser keypairs recent_blockhash
      = (Except.error SignerError.KeypairPubkeyMismatch, tx) := by
  obtain ⟨pk, hmem, hnot⟩ := habs
  have hfind : (tx.message.account_keys.take tx.message.header.num_required_signatures).findIdx?
      (fun x => x == pk) = none := by
    rw [List.findIdx?_eq_none_iff]
    intro x hx
    rw [beq_eq_false_iff_ne]
    intro hq
    exact hnot (hq ▸ hx)
  have hany : (keypairs.pubkeys.map (fun pubkey =>
      (tx.message.account_keys.take tx.message.header.num_required_signatures).findIdx?
        (fun x => x == pubkey))).any (fun pos => pos.isNone) = true := by
    refine List.any_eq_true.mpr ?_
    refine ⟨(tx.message.account_keys.take tx.message.header.num_required_signatures).findIdx?
      (fun x => x == pk), List.mem_map_of_mem _ hmem, ?_⟩
    rw [hfind]
    rfl
  have hok : tx.get_signing_keypair_positions keypairs.pubkeys
      = Except.ok (keypairs.pubkeys.map (fun pubkey =>
          (tx.message.account_keys.take tx.message.header.num_required_signatures).findIdx?
            (fun x => x == pubkey))) := by
    simp only [Transaction.get_signing_keypair_positions]
    rw [if_neg (by omega)]
  simp only [Transaction.try_partial_sign]
  rw [hok]
  set L := keypairs.pubkeys.map (fun pubkey =>
      (tx.message.account_keys.take tx.message.header.num_required_signatures).findIdx?
        (fun x => x == pubkey)) with hL
  show (if (L.any fun pos => pos.isNone) = true
        then (Except.error SignerError.KeypairPubkeyMismatch, tx)
        else tx.try_partial_sign_unchecked ser keypairs
          (L.map (fun pos => pos.getD 0)) recent_blockhash)
      = (Except.error SignerError.KeypairPubkeyMismatch, tx)
  rw [if_pos hany]

/-- Concrete transaction for the C7 witness. -/
def txC7w : Transaction := ⟨[0], ⟨⟨1, 0, 0⟩, [1, 2], 0, []⟩⟩

/-- Signers for the C7 witness: pubkey 3 is not in the signer slice. -/
def kpsC7w : Signers := ⟨[3], fun _ => Except.ok [9]⟩

/-- Witness for C7 (amended): at a concrete well-formed transaction, the
mismatching call fails with the keypair-pubkey-mismatch error and leaves the
transaction unchanged. -/
theorem try_partial_sign_mismatch_witness :
    (txC7w.message.header.num_required_signatures ≤ txC7w.message.account_keys.length
     ∧ (3 : Pubkey) ∈ kpsC7w.pubkeys
     ∧ (3 : Pubkey) ∉ txC7w.message.account_keys.take txC7w.message.header.num_required_signatures)
    ∧ txC7w.try_partial_sign serNil kpsC7w 0
        = (Except.error SignerError.KeypairPubkeyMismatch, txC7w) :=
  ⟨⟨by decide, by decide, by decide⟩,
   try_partial_sign_mismatch serNil txC7w kpsC7w 0 (by decide) ⟨3, by decide, by decide⟩⟩

/-- Concrete transaction for the C3 counterexample: one non-sentinel
signature, stored blockhash 0. -/
def txC3 : Transaction := ⟨[7], ⟨⟨1, 0, 0⟩, [1], 0, []⟩⟩

/-- Signers for the C3 counterexample: pubkey 2 is not a required signer. -/
def kpsC3 : Signers := ⟨[2], fun _ => Except.ok [9]⟩

/-- Claim C3 (counterexample): a `try_partial_sign` call with a fresh
blockhash (5, differing from the stored 0) but a mismatching key pair fails
before reaching the unchecked primitive: the blockhash is NOT overwritten and
the existing signature slot is NOT reset to the sentinel, contradicting the
claim for the wrapper. -/
theorem blockhash_change_resets_cex :
    (5 : Hash) ≠ txC3.message.recent_blockhash
    ∧ (txC3.try_partial_sign serNil kpsC3 5).2.message.recent_blockhash ≠ 5
    ∧ (txC3.try_partial_sign serNil kpsC3 5).2.signatures[0]? ≠ some signatureDefault := by
  decide

/-- Claim C3 (amended): `try_partial_sign_unchecked` called with a blockhash
different from the stored one always overwrites the message blockhash and
resets every signature slot not among the given positions to the sentinel
(also on signing failure); `try_partial_sign` delegates to the unchecked
primitive at the derived positions whenever every key pair pubkey occurs in
the signer slice (otherwise it fails without touching the transaction, as the
counterexample shows); and `try_sign` returns exactly `try_partial_sign`'s
post-state. -/
theorem blockhash_change_resets_signatures (ser : Message → Bytes)
    (keypairs : Signers) (recent_blockhash : Hash) :
    (∀ (tx : Transaction) (positions : List Nat),
      recent_blockhash ≠ tx.message.recent_blockhash →
      ((tx.try_partial_sign_unchecked ser keypairs positions recent_blockhash).2.message.recent_blockhash
          = recent_blockhash
        ∧ ∀ j, j < tx.signatures.length → j ∉ positions →
            (tx.try_partial_sign_unchecked ser keypairs positions recent_blockhash).2.signatures[j]?
              = some signatureDefault))
    ∧ (∀ tx : Transaction,
        tx.message.header.num_required_signatures ≤ tx.message.account_keys.length →
        (∀ pk ∈ keypairs.pubkeys,
          pk ∈ tx.message.account_keys.take tx.message.header.num_required_signatures) →
        tx.try_partial_sign ser keypairs recent_blockhash
          = tx.try_partial_sign_unchecked ser keypairs
              (keypairs.pubkeys.map (fun pubkey =>
                ((tx.message.account_keys.take tx.message.header.num_required_signatures).findIdx?
                  (fun x => x == pubkey)).getD 0)) recent_blockhash)
    ∧ (∀ tx : Transaction,
        (tx.try_sign ser keypairs recent_blockhash).2
          = (tx.try_partial_sign ser keypairs recent_blockhash).2) := by
  refine ⟨?_, ?_, ?_⟩
  · intro tx positions hne
    rw [try_partial_sign_unchecked_eq]
    have hcl : clearedSignatures tx recent_blockhash
        = tx.signatures.map (fun _ => signatureDefault) := by
      rw [clearedSignatures, if_neg hne]
    have hclj : ∀ j, j < tx.signatures.length →
        (clearedSignatures tx recent_blockhash)[j]? = some signatureDefault := by
      intro j hj
      rw [hcl, List.getElem?_map, List.getElem?_eq_getElem hj]
      rfl
    cases hs : keypairs.try_sign_message
        (ser { tx.message with recent_blockhash := recent_blockhash }) with
    | error e =>
      refine ⟨rfl, ?_⟩
      intro j hj _
      exact hclj j hj
    | ok sigs =>
      refine ⟨rfl, ?_⟩
      intro j hj hnotin
      have hw : ∀ w ∈ positions.zip sigs, w.1 ≠ j := by
        intro w hwmem hq
        exact hnotin (hq ▸ (List.of_mem_zip hwmem).1)
      show (writeAll (clearedSignatures tx recent_blockhash) (positions.zip sigs))[j]?
          = some signatureDefault
      rw [writeAll_getElem?_not_written _ _ _ hw]
      exact hclj j hj
  · intro tx hlen hall
    have hok : tx.get_signing_keypair_positions keypairs.pubkeys
        = Except.ok (keypairs.pubkeys.map (fun pubkey =>
            (tx.message.account_keys.take tx.message.header.num_required_signatures).findIdx?
              (fun x => x == pubkey))) := by
      simp only [Transaction.get_signing_keypair_positions]
      rw [if_neg (by omega)]
    have hsome : ∀ pk ∈ keypairs.pubkeys,
        ((tx.message.account_keys.take tx.message.header.num_required_signatures).findIdx?
          (fun x => x == pk)).isNone = false := by
      intro pk hpk
      cases hfd : (tx.message.account_keys.take tx.message.header.num_required_signatures).findIdx?
          (fun x => x == pk) with
      | some v => rfl
      | none =>
        rw [List.findIdx?_eq_none_iff] at hfd
        have := hfd pk (hall pk hpk)
        simp at this
    have hnone : ((keypairs.pubkeys.map (fun pubkey =>
        (tx.message.account_keys.take tx.message.header.num_required_signatures).findIdx?
          (fun x => x == pubkey))).any (fun pos => pos.isNone)) = false := by
      cases hab : (keypairs.pubkeys.map (fun pubkey =>
          (tx.message.account_keys.take tx.message.header.num_required_signatures).findIdx?
            (fun x => x == pubkey))).any (fun pos => pos.isNone) with
      | false => rfl
      | true =>
        rcases List.any_eq_true.mp hab with ⟨x, hx, hxt⟩
        rcases List.mem_map.mp hx with ⟨pk, hpk, rfl⟩
        rw [hsome pk hpk] at hxt
        exact Bool.noConfusion hxt
    simp only [Transaction.try_partial_sign]
    rw [hok]
    set L := keypairs.pubkeys.map (fun pubkey =>
        (tx.message.account_keys.take tx.message.header.num_required_signatures).findIdx?
          (fun x => x == pubkey)) with hL
    show (if (L.any fun pos => pos.isNone) = true
          then (Except.error SignerError.KeypairPubkeyMismatch, tx)
          else tx.try_partial_sign_unchecked ser keypairs
            (L.map (fun pos => pos.getD 0)) recent_blockhash)
        = tx.try_partial_sign_unchecked ser keypairs
            (keypairs.pubkeys.map (fun pubkey =>
              ((tx.message.account_keys.take tx.message.header.num_required_signatures).findIdx?
                (fun x => x == pubkey)).getD 0)) recent_blockhash
    rw [if_neg (by rw [hnone]; exact Bool.false_ne_true), hL, List.map_map]
    rfl
  · intro tx
    simp only [Transaction.try_sign]
    rcases hp : tx.try_partial_sign ser keypairs recent_blockhash with ⟨r, tx1⟩
    cases r with
    | error e => rfl
    | ok u =>
      show (if ¬ tx1.is_signed = true
            then (Except.error SignerError.NotEnoughSigners, tx1)
            else (Except.ok (), tx1)).2 = tx1
      by_cases hs : tx1.is_signed = true
      · rw [if_neg (by simp [hs])]
      · rw [if_pos (by simp [hs])]

/-- Concrete transaction for the C3 witness: two non-sentinel signatures,
stored blockhash 0. -/
def txC3w : Transaction := ⟨[7, 8], ⟨⟨2, 0, 0⟩, [1, 2], 0, []⟩⟩

/-- Signers for the C3 witness. -/
def kpsC3w : Signers := ⟨[1], fun _ => Except.ok [9]⟩

/-- Witness for C3 (amended): at a concrete transaction, signing at position 0
with a fresh blockhash overwrites the blockhash and resets the uninvolved
slot 1 to the sentinel. -/
theorem blockhash_change_resets_witness :
    (5 : Hash) ≠ txC3w.message.recent_blockhash
    ∧ (txC3w.try_partial_sign_unchecked serNil kpsC3w [0] 5).2.message.recent_blockhash = 5
    ∧ (txC3w.try_partial_sign_unchecked serNil kpsC3w [0] 5).2.signatures[1]? = some signatureDefault :=
  ⟨by decide,
   ((blockhash_change_resets_signatures serNil kpsC3w 5).1 txC3w [0] (by decide)).1,
   ((blockhash_change_resets_signatures serNil kpsC3w 5).1 txC3w [0] (by decide)).2 1
     (by decide) (by decide)⟩

/-! ## Reduction lemmas for `try_partial_sign` -/

theorem try_partial_sign_eq_of_positions_error (ser : Message → Bytes)
    (tx : Transaction) (keypairs : Signers) (recent_blockhash : Hash)
    (e : TransactionError)
    (hp : tx.get_signing_keypair_positions keypairs.pubkeys = Except.error e) :
    tx.try_partial_sign ser keypairs recent_blockhash
      = (Except.error (SignerError.transactionError e), tx) := by
  simp only [Transaction.try_partial_sign]
  rw [hp]

theorem try_partial_sign_eq_of_any_none (ser : Message → Bytes)
    (tx : Transaction) (keypairs : Signers) (recent_blockhash : Hash)
    (positions : List (Option Nat))
    (hp : tx.get_signing_keypair_positions keypairs.pubkeys = Except.ok positions)
    (hany : (positions.any fun pos => pos.isNone) = true) :
    tx.try_partial_sign ser keypairs recent_blockhash
      = (Except.error SignerError.KeypairPubkeyMismatch, tx) := by
  simp only [Transaction.try_partial_sign]
  rw [hp]
  show (if (positions.any fun pos => pos.isNone) = true
        then (Except.error SignerError.KeypairPubkeyMismatch, tx)
        else tx.try_partial_sign_unchecked ser keypairs
          (positions.map (fun pos => pos.getD 0)) recent_blockhash)
      = (Except.error SignerError.KeypairPubkeyMismatch, tx)
  rw [if_pos hany]

theorem try_partial_sign_eq_of_positions (ser : Message → Bytes)
    (tx : Transaction) (keypairs : Signers) (recent_blockhash : Hash)
    (positions : List (Option Nat))
    (hp : tx.get_signing_keypair_positions keypairs.pubkeys = Except.ok positions)
    (hany : (positions.any fun pos => pos.isNone) = false) :
    tx.try_partial_sign ser keypairs recent_blockhash
      = tx.try_partial_sign_unchecked ser keypairs
          (positions.map (fun pos => pos.getD 0)) recent_blockhash := by
  simp only [Transaction.try_partial_sign]
  rw [hp]
  show (if (positions.any fun pos => pos.isNone) = true
        then (Except.error SignerError.KeypairPubkeyMismatch, tx)
        else tx.try_partial_sign_unchecked ser keypairs
          (positions.map (fun pos => pos.getD 0)) recent_blockhash)
      = tx.try_partial_sign_unchecked ser keypairs
          (positions.map (fun pos => pos.getD 0)) recent_blockhash
  rw [if_neg (by rw [hany]; exact Bool.false_ne_true)]

/-- Claim C8 (confirmed): signing is idempotent under an unchanged blockhash:
if a `try_partial_sign` call succeeds, repeating it with the same key pairs
and the same blockhash (which equals the message's stored blockhash after the
first call) succeeds again and produces an identical signature vector. -/
theorem signing_idempotent_same_blockhash (ser : Message → Bytes)
    (keypairs : Signers) (recent_blockhash : Hash) (tx : Transaction)
    (h : (tx.try_partial_sign ser keypairs recent_blockhash).1 = Except.ok ()) :
    ((tx.try_partial_sign ser keypairs recent_blockhash).2.try_partial_sign ser keypairs
        recent_blockhash).1 = Except.ok ()
    ∧ ((tx.try_partial_sign ser keypairs recent_blockhash).2.try_partial_sign ser keypairs
        recent_blockhash).2.signatures
      = (tx.try_partial_sign ser keypairs recent_blockhash).2.signatures := by
  rcases hpget : tx.get_signing_keypair_positions keypairs.pubkeys with e | positions
  · rw [try_partial_sign_eq_of_positions_error ser tx keypairs recent_blockhash e hpget] at h
    simp at h
  cases hany : (positions.any fun pos => pos.isNone) with
  | true =>
    rw [try_partial_sign_eq_of_any_none ser tx keypairs recent_blockhash positions hpget hany] at h
    simp at h
  | false =>
    have hfirst := try_partial_sign_eq_of_positions ser tx keypairs recent_blockhash
      positions hpget hany
    rcases hs : keypairs.try_sign_message
        (ser { tx.message with recent_blockhash := recent_blockhash }) with e2 | sigs
    · rw [hfirst, try_partial_sign_unchecked_eq, hs] at h
      simp at h
    have hfirst2 : tx.try_partial_sign ser keypairs recent_blockhash
        = (Except.ok (),
           { signatures := writeAll (clearedSignatures tx recent_blockhash)
               ((positions.map (fun pos => pos.getD 0)).zip sigs),
             message := { tx.message with recent_blockhash := recent_blockhash } }) := by
      rw [hfirst, try_partial_sign_unchecked_eq, hs]
    have hgen : ∀ tx1 : Transaction,
        tx1.message = { tx.message with recent_blockhash := recent_blockhash } →
        tx1.try_partial_sign ser keypairs recent_blockhash
          = (Except.ok (),
             { tx1 with
               signatures := writeAll tx1.signatures
                 ((positions.map (fun pos => pos.getD 0)).zip sigs) }) := by
      intro tx1 hmsg
      have hp1 : tx1.get_signing_keypair_positions keypairs.pubkeys = Except.ok positions := by
        have heq : tx1.get_signing_keypair_positions keypairs.pubkeys
            = tx.get_signing_keypair_positions keypairs.pubkeys := by
          simp only [Transaction.get_signing_keypair_positions, hmsg]
        rw [heq, hpget]
      have hstep := try_partial_sign_eq_of_positions ser tx1 keypairs recent_blockhash
        positions hp1 hany
      have hcl1 : clearedSignatures tx1 recent_blockhash = tx1.signatures := by
        rw [clearedSignatures, if_pos (by rw [hmsg])]
      have hs1 : keypairs.try_sign_message
          (ser { tx1.message with recent_blockhash := recent_blockhash }) = Except.ok sigs := by
        rw [hmsg]
        exact hs
      rw [hstep, try_partial_sign_unchecked_eq, hcl1, hs1, hmsg]
    have hsnd : (tx.try_partial_sign ser keypairs recent_blockhash).2
        = { signatures := writeAll (clearedSignatures tx recent_blockhash)
              ((positions.map (fun pos => pos.getD 0)).zip sigs),
            message := { tx.message with recent_blockhash := recent_blockhash } } := by
      rw [hfirst2]
    rw [hsnd, hgen _ rfl]
    refine ⟨rfl, ?_⟩
    show writeAll (writeAll (clearedSignatures tx recent_blockhash)
        ((positions.map (fun pos => pos.getD 0)).zip sigs))
        ((positions.map (fun pos => pos.getD 0)).zip sigs)
      = writeAll (clearedSignatures tx recent_blockhash)
        ((positions.map (fun pos => pos.getD 0)).zip sigs)
    exact writeAll_idem _ _

/-- Concrete transaction for the C8 witness. -/
def txC8 : Transaction := ⟨[0], ⟨⟨1, 0, 0⟩, [4], 0, []⟩⟩

/-- Signers for the C8 witness: pubkey 4 is the single required signer. -/
def kpsC8 : Signers := ⟨[4], fun _ => Except.ok [9]⟩

/-- Witness for C8: signing the concrete transaction twice with the same key
pair and same blockhash yields identical signature vectors. -/
theorem signing_idempotent_witness :
    (txC8.try_partial_sign serNil kpsC8 0).1 = Except.ok ()
    ∧ ((txC8.try_partial_sign serNil kpsC8 0).2.try_partial_sign serNil kpsC8 0).2.signatures
      = (txC8.try_partial_sign serNil kpsC8 0).2.signatures :=
  ⟨by decide, (signing_idempotent_same_blockhash serNil kpsC8 0 txC8 (by decide)).2⟩

theorem enum_eq_enumFrom {α : Type} (l : List α) : l.enum = l.enumFrom 0 := rfl

/-- Claim C10 (confirmed): `replace_signatures` fails with the
invalid-account-index error and leaves the transaction unchanged whenever the
signer count or the signature count differs from `num_required_signatures` or
the account keys are fewer than `num_required_signatures`; when the length
checks pass it overwrites `signatures[i]` and `account_keys[i]` from the i-th
signer pair for every i (leaving the key suffix untouched) and returns
`verify()` evaluated on the mutated transaction — so on a verification
failure the transaction keeps the replaced signatures and keys. -/
theorem replace_signatures_spec (sv : Signature → Pubkey → Bytes → Bool)
    (ser : Message → Bytes) (tx : Transaction)
    (signers : List (Pubkey × Signature)) :
    ((signers.length ≠ tx.message.header.num_required_signatures
      ∨ tx.signatures.length ≠ tx.message.header.num_required_signatures
      ∨ tx.message.account_keys.length < tx.message.header.num_required_signatures) →
      tx.replace_signatures sv ser signers
        = (Except.error TransactionError.InvalidAccountIndex, tx))
    ∧ (signers.length = tx.message.header.num_required_signatures →
       tx.signatures.length = tx.message.header.num_required_signatures →
       tx.message.header.num_required_signatures ≤ tx.message.account_keys.length →
       ((tx.replace_signatures sv ser signers).2.signatures
          = signers.map (fun w => w.2)
        ∧ (∀ i, i < tx.message.header.num_required_signatures →
            (tx.replace_signatures sv ser signers).2.message.account_keys[i]?
              = (signers[i]?).map (fun w => w.1))
        ∧ (∀ i, tx.message.header.num_required_signatures ≤ i →
            (tx.replace_signatures sv ser signers).2.message.account_keys[i]?
              = tx.message.account_keys[i]?)
        ∧ (tx.replace_signatures sv ser signers).1
            = (tx.replace_signatures sv ser signers).2.verify sv ser)) := by
  constructor
  · intro hbad
    simp only [Transaction.replace_signatures]
    rw [if_pos hbad]
  · intro h1 h2 h3
    have hneg : ¬(signers.length ≠ tx.message.header.num_required_signatures
        ∨ tx.signatures.length ≠ tx.message.header.num_required_signatures
        ∨ tx.message.account_keys.length < tx.message.header.num_required_signatures) := by
      push_neg
      exact ⟨h1, h2, by omega⟩
    have hpost : tx.replace_signatures sv ser signers
        = ((signers.enum.foldl (fun t w =>
              { signatures := t.signatures.set w.1 w.2.2,
                message := { t.message with
                  account_keys := t.message.account_keys.set w.1 w.2.1 } }) tx).verify sv ser,
           signers.enum.foldl (fun t w =>
              { signatures := t.signatures.set w.1 w.2.2,
                message := { t.message with
                  account_keys := t.message.account_keys.set w.1 w.2.1 } }) tx) := by
      simp only [Transaction.replace_signatures]
      rw [if_neg hneg]
    have hsnd : (tx.replace_signatures sv ser signers).2
        = { signatures := writeAll tx.signatures (signers.enum.map (fun w => (w.1, w.2.2))),
            message := { tx.message with
              account_keys := writeAll tx.message.account_keys
                (signers.enum.map (fun w => (w.1, w.2.1))) } } := by
      rw [hpost]
      show signers.enum.foldl (fun t w =>
          { signatures := t.signatures.set w.1 w.2.2,
            message := { t.message with
              account_keys := t.message.account_keys.set w.1 w.2.1 } }) tx = _
      rw [replace_signatures_loop_eq]
    have hfst : (tx.replace_signatures sv ser signers).1
        = ((tx.replace_signatures sv ser signers).2).verify sv ser := by
      rw [hpost]
    refine ⟨?_, ?_, ?_, hfst⟩
    · rw [hsnd]
      show writeAll tx.signatures (signers.enum.map (fun w => (w.1, w.2.2)))
          = signers.map (fun w => w.2)
      apply List.ext_getElem?
      intro i
      rw [writeAll_getElem?, enum_eq_enumFrom signers,
        lastWrite_enumFrom_map (fun w => w.2) signers 0 i, if_pos (Nat.zero_le i),
        Nat.sub_zero, List.getElem?_map]
      cases hsi : signers[i]? with
      | some w =>
        have hi : i < signers.length := (List.getElem?_eq_some.mp hsi).1
        have hil : i < tx.signatures.length := by omega
        simp [hil]
      | none =>
        have hi : ¬ i < signers.length := by
          intro hc
          rw [List.getElem?_eq_getElem hc] at hsi
          exact Option.noConfusion hsi
        have hlen2 : tx.signatures.length ≤ i := by omega
        simp [List.getElem?_eq_none hlen2]
    · intro i hi
      rw [hsnd]
      show (writeAll tx.message.account_keys
          (signers.enum.map (fun w => (w.1, w.2.1))))[i]? = (signers[i]?).map (fun w => w.1)
      rw [writeAll_getElem?, enum_eq_enumFrom signers,
        lastWrite_enumFrom_map (fun w => w.1) signers 0 i, if_pos (Nat.zero_le i),
        Nat.sub_zero]
      have hi2 : i < signers.length := by omega
      have hi3 : i < tx.message.account_keys.length := by omega
      rw [List.getElem?_eq_getElem hi2]
      simp [hi3]
    · intro i hi
      rw [hsnd]
      show (writeAll tx.message.account_keys
          (signers.enum.map (fun w => (w.1, w.2.1))))[i]? = tx.message.account_keys[i]?
      rw [writeAll_getElem?, enum_eq_enumFrom signers,
        lastWrite_enumFrom_map (fun w => w.1) signers 0 i, if_pos (Nat.zero_le i),
        Nat.sub_zero]
      have hnone : signers[i]? = none := List.getElem?_eq_none (by omega)
      rw [hnone]
      simp

/-- Concrete transaction for the C10 witness. -/
def txC10 : Transaction := ⟨[0], ⟨⟨1, 0, 0⟩, [4, 6], 0, []⟩⟩

/-- Witness for C10: the failing-length branch at a concrete transaction, and
the passing branch overwriting the signature and key and returning the
verification result of the mutated transaction. -/
theorem replace_signatures_spec_witness :
    txC10.replace_signatures svF serNil []
      = (Except.error TransactionError.InvalidAccountIndex, txC10)
    ∧ (txC10.replace_signatures svF serNil [(5, 9)]).2.signatures = [(((5 : Pubkey), (9 : Signature)))].map (fun w => w.2)
    ∧ (txC10.replace_signatures svF serNil [(5, 9)]).1
      = (txC10.replace_signatures svF serNil [(5, 9)]).2.verify svF serNil :=
  ⟨(replace_signatures_spec svF serNil txC10 []).1 (by decide),
   ((replace_signatures_spec svF serNil txC10 [(5, 9)]).2 (by decide) (by decide) (by decide)).1,
   ((replace_signatures_spec svF serNil txC10 [(5, 9)]).2 (by decide) (by decide) (by decide)).2.2.2⟩

/-- Bounded deserializer sample for the C4 witness: recognizes exactly the
four-byte advance-nonce encoding. -/
def ldC4 : Bytes → Except Unit SystemInstruction := fun d =>
  if d = [4, 0, 0, 0] then Except.ok SystemInstruction.AdvanceNonceAccount
  else Except.error ()

/-- Concrete durable-nonce transaction for the C4 witness: marker instruction
at index 0, system program at key index 2, writable nonce account at key
index 1. -/
def txC4 : Transaction := ⟨[1, 1], ⟨⟨2, 0, 1⟩, [5, 6, 0], 0, [⟨2, [1], [4, 0, 0, 0]⟩]⟩⟩

/-- Witness for C4: the four conditions hold at a concrete transaction, and
`uses_durable_nonce` returns its marker instruction. -/
theorem uses_durable_nonce_iff_witness :
    uses_durable_nonce ldC4 txC4 = some ⟨2, [1], [4, 0, 0, 0]⟩ :=
  (uses_durable_nonce_iff ldC4 txC4 ⟨2, [1], [4, 0, 0, 0]⟩).mpr
    ⟨by decide, ⟨0, by decide, by decide⟩, by decide, ⟨1, by decide, by decide⟩⟩
